import Mathlib

set_option maxRecDepth 8000

/-!
Shallow embedding of the als_ros2 GLPoseSampler pipeline
(src/include/als_ros2/Pose.h) over exact rational arithmetic.

Conventions used throughout:
* C++ `double` / `float` values are modelled as `ℚ`; all comparisons and
  branch structure are taken verbatim from the source.  A C++ floating
  division whose denominator can be zero (producing IEEE NaN) is modelled
  as an `Option ℚ` that is `none` in that case, and every comparison the
  source performs on such a possibly-NaN value is modelled with the IEEE
  rule that a comparison against NaN is false.
* Calls to `cos`, `sin` and `atan2` are modelled by explicit function
  parameters (`cosF`, `sinF`, `atan2Deg`): the claims under study never
  depend on trigonometric identities, only on how the computed values
  flow through the code.
* `M_PI` is modelled by a parameter `piQ` (positive in every theorem that
  needs it); the `while`-loop angle normalisations of the source are
  modelled by fuelled recursions whose fuel bounds the number of loop
  iterations the source would perform.
* C++ `(int)` casts of floating values truncate toward zero, modelled by
  `truncQ`.
-/

namespace AlsRos2

/-- Truncation toward zero of a rational, the semantics of a C++
`(int)` cast applied to a floating value. -/
def truncQ (q : ℚ) : Int :=
  if 0 ≤ q then Int.floor q else Int.ceil q

/-- Fuel bound for the angle-normalisation loops: at most this many
iterations of `x += 2*p` (or `x -= 2*p`) are needed to bring `x` into
`[-p, p]` when `0 < p`. -/
def wrapFuel (p y : ℚ) : ℕ :=
  (Int.ceil (|y| / (2 * |p|))).toNat + 2

/-- Embeds the loop `while (yaw < -pi) yaw += 2.0 * pi` of
`Pose::modifyYaw` (Pose.h line 42), with explicit fuel. -/
def yawUp : ℕ → ℚ → ℚ → ℚ
  | 0, _, y => y
  | n + 1, p, y => if y < -p then yawUp n p (y + 2 * p) else y

/-- Embeds the loop `while (yaw > pi) yaw -= 2.0 * pi` of
`Pose::modifyYaw` (Pose.h line 44), with explicit fuel. -/
def yawDown : ℕ → ℚ → ℚ → ℚ
  | 0, _, y => y
  | n + 1, p, y => if y > p then yawDown n p (y - 2 * p) else y

/-- Embeds `Pose::modifyYaw` (Pose.h lines 40-46): wraps a yaw angle into
`[-piQ, piQ]` by the source's two sequential while loops.  The same loop
pair appears inline in `GLPoseSampler::scanCB` (lines 1079-1082). -/
def modifyYawQ (piQ y : ℚ) : ℚ :=
  yawDown (wrapFuel piQ y) piQ (yawUp (wrapFuel piQ y) piQ y)

/-- Embeds `als_ros2::Pose` (Pose.h lines 32-123) with exact rational
coordinates. -/
structure PoseQ where
  x : ℚ
  y : ℚ
  yaw : ℚ
  deriving DecidableEq

/-- Embeds `Pose::setPose` (Pose.h line 97): copies a pose and normalises
its yaw via `modifyYaw`. -/
def setPoseNorm (piQ : ℚ) (p : PoseQ) : PoseQ :=
  ⟨p.x, p.y, modifyYawQ piQ p.yaw⟩

/-- Embeds `als_ros2::Keypoint` (Pose.h lines 190-221): grid coordinates,
world coordinates and a classification in {-2 invalid, -1 minimum,
0 saddle, 1 maximum}. -/
structure Keypoint where
  u : Int
  v : Int
  x : ℚ
  y : ℚ
  type : Int
  deriving DecidableEq

/-- Occupancy grid as consumed by the sampler: dimensions, resolution,
origin pose and the flat cell array `data` (indexed by `v*width + u`,
values 0 free, 100 occupied, -1 unknown), as in
`nav_msgs::OccupancyGrid` plus `GLPoseSampler::setMapInfo`
(Pose.h lines 355-371). -/
structure GridQ where
  width : Int
  height : Int
  resolution : ℚ
  originX : ℚ
  originY : ℚ
  originYaw : ℚ
  data : Int → Int

/-- Embeds the `dx` Sobel-style kernel of `GLPoseSampler::detectKeypoints`
(Pose.h line 421); `dist v u` is `distMap.at<float>(v, u)`. -/
def sobelDx (dist : Int → Int → ℚ) (u v : Int) : ℚ :=
  -dist (v - 1) (u - 1) - dist v (u - 1) - dist (v + 1) (u - 1)
    + dist (v - 1) (u + 1) + dist v (u + 1) + dist (v + 1) (u + 1)

/-- Embeds the `dy` Sobel-style kernel of `GLPoseSampler::detectKeypoints`
(Pose.h line 422). -/
def sobelDy (dist : Int → Int → ℚ) (u v : Int) : ℚ :=
  -dist (v - 1) (u - 1) - dist (v - 1) u - dist (v - 1) (u + 1)
    + dist (v + 1) (u - 1) + dist (v + 1) u + dist (v + 1) (u + 1)

/-- Embeds `dxx` of `GLPoseSampler::detectKeypoints` (Pose.h line 424). -/
def hessDxx (dist : Int → Int → ℚ) (u v : Int) : ℚ :=
  dist v (u - 1) - 2 * dist v u + dist v (u + 1)

/-- Embeds `dyy` of `GLPoseSampler::detectKeypoints` (Pose.h line 425). -/
def hessDyy (dist : Int → Int → ℚ) (u v : Int) : ℚ :=
  dist (v - 1) u - 2 * dist v u + dist (v + 1) u

/-- Embeds `dxy` of `GLPoseSampler::detectKeypoints` (Pose.h line 426). -/
def hessDxy (dist : Int → Int → ℚ) (u v : Int) : ℚ :=
  dist (v - 1) (u - 1) - dist (v - 1) u - dist v (u - 1) + 2 * dist v u
    - dist v (u + 1) - dist (v + 1) u + dist (v + 1) (u + 1)

/-- World coordinates of a grid cell as computed inside
`GLPoseSampler::detectKeypoints` (Pose.h lines 431-436); `cy`/`sy` are
the values `cos(yaw)`/`sin(yaw)` of the map-origin yaw. -/
def keypointWorld (g : GridQ) (cy sy : ℚ) (u v : Int) : ℚ × ℚ :=
  let xx : ℚ := (u : ℚ) * g.resolution
  let yy : ℚ := (v : ℚ) * g.resolution
  (xx * cy - yy * sy + g.originX, xx * sy + yy * cy + g.originY)

/-- Embeds the loop body of `GLPoseSampler::detectKeypoints`
(Pose.h lines 417-443) for one grid cell `(u, v)`: skip occupied or
too-close-to-obstacle cells, require the componentwise gradient flatness
test, then classify by the signs of `det` and `dxx`. -/
def cellKeypoint (g : GridQ) (dist : Int → Int → ℚ) (cy sy : ℚ)
    (gradTH minDist : ℚ) (u v : Int) : Option Keypoint :=
  if g.data (v * g.width + u) ≠ 0 ∨ dist v u < minDist then none
  else
    let dx := sobelDx dist u v
    let dy := sobelDy dist u v
    let dxx := hessDxx dist u v
    let dyy := hessDyy dist u v
    let dxy := hessDxy dist u v
    let det := dxx * dyy - dxy * dxy
    if dx * dx < gradTH ∧ dy * dy < gradTH then
      let w := keypointWorld g cy sy u v
      if det > 0 ∧ dxx < 0 then some ⟨u, v, w.1, w.2, 1⟩
      else if det > 0 ∧ dxx > 0 then some ⟨u, v, w.1, w.2, -1⟩
      else if det < 0 then some ⟨u, v, w.1, w.2, 0⟩
      else none
    else none

/-- Index range of the loops `for (u = 1; u < width - 1; ++u)` in
`GLPoseSampler::detectKeypoints` (Pose.h lines 413-415): the interior
indices `1, ..., n - 2`. -/
def interiorRange (n : Int) : List Int :=
  (List.range (n - 2).toNat).map (fun (i : ℕ) => 1 + (i : Int))

/-- Embeds `GLPoseSampler::detectKeypoints` (Pose.h lines 402-447):
outer loop over `u`, inner loop over `v`, collecting the keypoints the
loop body pushes.  `cy`/`sy` stand for `cos`/`sin` of the map-origin
yaw recovered at lines 405-412. -/
def detectKeypoints (g : GridQ) (dist : Int → Int → ℚ) (cy sy : ℚ)
    (gradTH minDist : ℚ) : List Keypoint :=
  (interiorRange g.width).flatMap (fun u =>
    (interiorRange g.height).filterMap (fun v =>
      cellKeypoint g dist cy sy gradTH minDist u v))

/-- Embeds `als_ros2::SDFOrientationFeature` (Pose.h lines 227-273).
The average SDF value is an `Option ℚ`: `none` models the IEEE NaN the
source produces when the window cell count is zero (float `0.0/0`). -/
structure SDFOrientationFeature where
  dominantOrientation : ℚ
  averageSDF : Option ℚ
  relativeOrientationHist : List Int
  deriving DecidableEq

/-- Embeds the loop `while (dt > 180.0) dt -= 360.0` of
`GLPoseSampler::calculateFeatures` (Pose.h lines 503-504), with fuel. -/
def degDown : ℕ → ℚ → ℚ
  | 0, t => t
  | n + 1, t => if t > 180 then degDown n (t - 360) else t

/-- Embeds the loop `while (dt < -180.0) dt += 360.0` of
`GLPoseSampler::calculateFeatures` (Pose.h lines 505-506), with fuel. -/
def degUp : ℕ → ℚ → ℚ
  | 0, t => t
  | n + 1, t => if t < -180 then degUp n (t + 360) else t

/-- Wraps an angle difference in degrees into `[-180, 180]` by the
source's two sequential while loops (Pose.h lines 503-506); the fuel
bounds the number of iterations the source would perform. -/
def wrapDeg (t : ℚ) : ℚ :=
  degUp ((Int.ceil (|t| / 360)).toNat + 2) (degDown ((Int.ceil (|t| / 360)).toNat + 2) t)

/-- Accumulator of the window scan of `GLPoseSampler::calculateFeatures`
(Pose.h lines 457-460): running distance sum, valid-cell count, 36-bin
gradient-direction histogram and the list of sampled directions. -/
structure FeatAcc where
  distSum : ℚ
  cellNum : ℕ
  orientHist : List Int
  orientations : List ℚ
  deriving DecidableEq

/-- Embeds one iteration of the window loops of
`GLPoseSampler::calculateFeatures` (Pose.h lines 462-484): skip cells
closer than 1 cell to the border (the source's bound is
`u < 1 || cols - 1 < u`, and likewise for `v`), otherwise accumulate the
distance value, the cell count and the gradient-direction histogram.
`atan2Deg dy dx` stands for `atan2(dy, dx) * 180 / M_PI`. -/
def featAccStep (dist : Int → Int → ℚ) (cols rows : Int)
    (atan2Deg : ℚ → ℚ → ℚ) (acc : FeatAcc) (uv : Int × Int) : FeatAcc :=
  let u := uv.1
  let v := uv.2
  if u < 1 ∨ cols - 1 < u ∨ v < 1 ∨ rows - 1 < v then acc
  else
    let dx := sobelDx dist u v
    let dy := sobelDy dist u v
    let t0 := atan2Deg dy dx
    let t := if t0 < 0 then t0 + 360 else t0
    let orientIdx := truncQ (t / 10)
    let acc1 : FeatAcc :=
      { acc with distSum := acc.distSum + dist v u, cellNum := acc.cellNum + 1 }
    if 0 ≤ orientIdx ∧ orientIdx < 36 then
      { acc1 with
          orientHist := acc1.orientHist.set orientIdx.toNat
            (acc1.orientHist.getD orientIdx.toNat 0 + 1),
          orientations := acc1.orientations ++ [t] }
    else acc1

/-- Cell indices `c - r, ..., c + r` of the window loops
`for (u = uo - r; u <= uo + r; ++u)` (Pose.h lines 462-464). -/
def windowRange (c r : Int) : List Int :=
  (List.range (2 * r + 1).toNat).map (fun (i : ℕ) => c - r + (i : Int))

/-- Embeds the dominant-orientation search of
`GLPoseSampler::calculateFeatures` (Pose.h lines 488-497): `maxVal`
starts at bin 0, `domOrient` at 0, and bins 1..35 update both only on a
strictly greater count.  Returns `(maxVal, domOrient)` in degrees. -/
def domFold (hist : List Int) : Int × ℚ :=
  ((List.range 35).map (fun j => j + 1)).foldl
    (fun mv j =>
      if hist.getD j 0 > mv.1 then (hist.getD j 0, (j : ℚ) * 10) else mv)
    (hist.getD 0 0, 0)

/-- Embeds the relative-orientation histogram loop of
`GLPoseSampler::calculateFeatures` (Pose.h lines 499-510): 17 bins of
absolute angular deviation from the dominant orientation. -/
def relHistFold (domOrient : ℚ) (orients : List ℚ) : List Int :=
  orients.foldl
    (fun h t =>
      let dt := wrapDeg (domOrient - t)
      let idx := truncQ (|dt| / 10)
      if 0 ≤ idx ∧ idx < 17 then h.set idx.toNat (h.getD idx.toNat 0 + 1) else h)
    (List.replicate 17 0)

/-- Embeds the body of `GLPoseSampler::calculateFeatures`
(Pose.h lines 452-513) for one keypoint: window radius
`r = (int)(windowSize / res)`, window scan, average (`none` when the
cell count is zero, where the source divides by zero producing NaN),
dominant orientation and relative-orientation histogram. -/
def featureOf (dist : Int → Int → ℚ) (cols rows : Int) (res windowSize piQ : ℚ)
    (atan2Deg : ℚ → ℚ → ℚ) (kp : Keypoint) : SDFOrientationFeature :=
  let r := truncQ (windowSize / res)
  let cells : List (Int × Int) :=
    (windowRange kp.u r).flatMap (fun u => (windowRange kp.v r).map (fun v => (u, v)))
  let acc := cells.foldl (featAccStep dist cols rows atan2Deg)
    ⟨0, 0, List.replicate 36 0, []⟩
  let distAve : Option ℚ :=
    if acc.cellNum = 0 then none else some (acc.distSum / (acc.cellNum : ℚ))
  let dv := domFold acc.orientHist
  ⟨dv.2 * piQ / 180, distAve, relHistFold dv.2 acc.orientations⟩

/-- Embeds `GLPoseSampler::calculateFeatures` (Pose.h lines 449-516):
one feature per keypoint, index-aligned. -/
def calculateFeatures (dist : Int → Int → ℚ) (cols rows : Int)
    (res windowSize piQ : ℚ) (atan2Deg : ℚ → ℚ → ℚ)
    (kps : List Keypoint) : List SDFOrientationFeature :=
  kps.map (featureOf dist cols rows res windowSize piQ atan2Deg)

/-- Keypoint type paired with its feature, the per-index view of the
aligned `sdfKeypoints_` / `sdfOrientationFeatures_` vectors consumed by
`GLPoseSampler::findCorrespondingFeatures` (Pose.h lines 888-939). -/
structure TypedFeature where
  type : Int
  avgSDF : Option ℚ
  hist : List Int
  deriving DecidableEq

/-- L1 distance between two 17-bin relative-orientation histograms, the
`sum` of Pose.h lines 904-906. -/
def histL1 (a b : List Int) : Int :=
  ((List.range 17).map (fun k => |a.getD k 0 - b.getD k 0|)).sum

/-- Embeds the average-SDF gate `fabs(dAverageSDF) > averageSDFDeltaTH_`
of Pose.h lines 900-902.  When either average is NaN (`none`) the
source's comparison against NaN is false, so the candidate is NOT
skipped. -/
def sdfSkip (la ga : Option ℚ) (th : ℚ) : Bool :=
  match la, ga with
  | some a, some b => |a - b| > th
  | _, _ => false

/-- Loop state of `GLPoseSampler::findCorrespondingFeatures`
(Pose.h lines 894-895).  The source leaves `idx1`/`idx2` uninitialised;
they are read only after being assigned, so the initial 0 here is
immaterial. -/
structure MatchState where
  isFirst : Bool
  isSecond : Bool
  idx1 : Int
  idx2 : Int
  min1 : Int
  min2 : Int
  deriving DecidableEq

/-- Initial loop state of Pose.h lines 894-895:
`isFirst = isSecond = true`, `min1 = min2 = -1`. -/
def matchInit : MatchState :=
  ⟨true, true, 0, 0, -1, -1⟩

/-- Embeds the best/second-best bookkeeping of
`GLPoseSampler::findCorrespondingFeatures` (Pose.h lines 908-928) for
one considered candidate `(j, sum)`. -/
def matchBody (st : MatchState) (j : Int) (sum : Int) : MatchState :=
  if st.isFirst then
    { st with min1 := sum, idx1 := j, isFirst := false }
  else if st.isSecond then
    if st.min1 < sum then
      { st with min2 := sum, idx2 := j, isSecond := false }
    else
      { st with min2 := st.min1, idx2 := st.idx1, min1 := sum, idx1 := j,
                isSecond := false }
  else if st.min1 > sum then
    { st with min2 := st.min1, idx2 := st.idx1, min1 := sum, idx1 := j }
  else st

/-- Embeds one iteration of the inner loop of
`GLPoseSampler::findCorrespondingFeatures` (Pose.h lines 896-929):
skip on type mismatch, skip on the average-SDF gate, otherwise run the
best/second-best bookkeeping on the histogram L1 distance. -/
def matchScanStep (lf : TypedFeature) (th : ℚ) (st : MatchState)
    (jg : ℕ × TypedFeature) : MatchState :=
  if lf.type ≠ jg.2.type then st
  else if sdfSkip lf.avgSDF jg.2.avgSDF th then st
  else matchBody st (jg.1 : Int) (histL1 lf.hist jg.2.hist)

/-- Final loop state of `GLPoseSampler::findCorrespondingFeatures` for
one local feature over the indexed global feature list. -/
def matchScan (lf : TypedFeature) (th : ℚ) (globals : List TypedFeature) :
    MatchState :=
  globals.enum.foldl (matchScanStep lf th) matchInit

/-- Embeds the acceptance rule of Pose.h lines 931-936:
`(float)min1 * 1.5f < (float)min2` is exact here because the histogram
sums are small integers. -/
def matchDecision (st : MatchState) : Int :=
  if st.min1 ≥ 0 ∧ st.min2 ≥ 0 ∧ (st.min1 : ℚ) * (3 / 2) < (st.min2 : ℚ) then st.idx1
  else if st.min1 ≥ 0 ∧ st.min2 < 0 then st.idx1
  else -1

/-- Embeds `GLPoseSampler::findCorrespondingFeatures`
(Pose.h lines 888-939) for one local feature: the returned global index
or -1. -/
def findCorrespondingFeature (lf : TypedFeature) (th : ℚ)
    (globals : List TypedFeature) : Int :=
  matchDecision (matchScan lf th globals)

/-- Embeds `GLPoseSampler::findCorrespondingFeatures`
(Pose.h lines 888-939): one result per local feature. -/
def findCorrespondingFeatures (locals : List TypedFeature) (th : ℚ)
    (globals : List TypedFeature) : List Int :=
  locals.map (fun lf => findCorrespondingFeature lf th globals)

/-- The candidates the matcher actually considers for a local feature:
global indices passing the type and average-SDF gates, paired with
their histogram L1 score (derived from the skip conditions of
Pose.h lines 897-902). -/
def consideredCands (lf : TypedFeature) (th : ℚ)
    (globals : List TypedFeature) : List (Int × Int) :=
  (globals.enum.filter (fun jg =>
      lf.type = jg.2.type ∧ sdfSkip lf.avgSDF jg.2.avgSDF th = false)).map
    (fun jg => ((jg.1 : Int), histL1 lf.hist jg.2.hist))

/-- Specification-side yardstick (from the claim's words, not from the
source): exact best/second-best tracking over a list of scores. -/
def twoMins (l : List Int) : Option Int × Option Int :=
  l.foldl
    (fun p s =>
      match p with
      | (none, _) => (some s, none)
      | (some m1, none) => if s < m1 then (some s, some m1) else (some m1, some s)
      | (some m1, some m2) =>
        if s < m1 then (some s, some m1)
        else if s < m2 then (some m1, some s)
        else (some m1, some m2))
    (none, none)

/-- Specification-side yardstick: the true second-smallest score of a
list, which the claim asserts the source's `min2` tracks. -/
def secondSmallest (l : List Int) : Option Int :=
  (twoMins l).2

/-- Embeds the fields of `sensor_msgs::LaserScan` the sampler reads. -/
structure ScanQ where
  angleMin : ℚ
  angleInc : ℚ
  rangeMin : ℚ
  rangeMax : ℚ
  ranges : List ℚ
  deriving DecidableEq

/-- Embeds `GLPoseSampler::xy2uv` (Pose.h lines 333-342); `cosF`/`sinF`
stand for `cos`/`sin`, and the `(int)` casts truncate toward zero. -/
def xy2uv (m : GridQ) (cosF sinF : ℚ → ℚ) (x y : ℚ) : Int × Int :=
  let dx := x - m.originX
  let dy := y - m.originY
  let yaw := -m.originYaw
  let xx := dx * cosF yaw - dy * sinF yaw
  let yy := dx * sinF yaw + dy * cosF yaw
  (truncQ (xx / m.resolution), truncQ (yy / m.resolution))

/-- Validity test for one beam in `GLPoseSampler::computeMatchingRate`
(Pose.h lines 952-956): in `[range_min, range_max]` and not below the
minimum distance from the map. -/
def beamValid (scan : ScanQ) (minDist r : ℚ) : Bool :=
  !(r < scan.rangeMin ∨ scan.rangeMax < r) && !(r < minDist)

/-- Terminal grid cell of beam `i` with range `r`, cast from the laser
pose, as computed at Pose.h lines 959-963. -/
def beamEndUV (m : GridQ) (cosF sinF : ℚ → ℚ) (scan : ScanQ)
    (sensorX sensorY sensorYaw : ℚ) (i : ℕ) (r : ℚ) : Int × Int :=
  let t := (i : ℚ) * scan.angleInc + scan.angleMin + sensorYaw
  xy2uv m cosF sinF (r * cosF t + sensorX) (r * sinF t + sensorY)

/-- Occupancy test of Pose.h lines 964-972: the terminal cell is strictly
interior and it or one of its four neighbours holds value 100. -/
def beamMatches (m : GridQ) (uv : Int × Int) : Bool :=
  let u := uv.1
  let v := uv.2
  let n0 := v * m.width + u
  decide (1 ≤ u ∧ u < m.width - 1 ∧ 1 ≤ v ∧ v < m.height - 1) &&
    decide (m.data n0 = 100 ∨ m.data (n0 - m.width) = 100 ∨
      m.data (n0 - 1) = 100 ∨ m.data (n0 + 1) = 100 ∨
      m.data (n0 + m.width) = 100)

/-- Per-beam accumulation of `(validScanNum, matchingNum)` in
`GLPoseSampler::computeMatchingRate` (Pose.h lines 950-973). -/
def rateStep (m : GridQ) (cosF sinF : ℚ → ℚ) (scan : ScanQ) (minDist : ℚ)
    (sensorX sensorY sensorYaw : ℚ) (acc : ℕ × ℕ) (ir : ℕ × ℚ) : ℕ × ℕ :=
  if beamValid scan minDist ir.2 then
    (acc.1 + 1,
     if beamMatches m (beamEndUV m cosF sinF scan sensorX sensorY sensorYaw ir.1 ir.2)
     then acc.2 + 1 else acc.2)
  else acc

/-- Matching rate of one scan cast from a candidate pose, the body of
`GLPoseSampler::computeMatchingRate` (Pose.h lines 941-975) once the
scan has been selected.  The result is `none` when no beam is valid: the
source then divides `0 / 0` in floating point, producing NaN. -/
def scanMatchingRate (m : GridQ) (cosF sinF : ℚ → ℚ) (b2l : PoseQ)
    (minDist : ℚ) (scan : ScanQ) (pose : PoseQ) : Option ℚ :=
  let c := cosF b2l.yaw
  let s := sinF b2l.yaw
  let sensorX := b2l.x * c - b2l.y * s + pose.x
  let sensorY := b2l.x * s + b2l.y * c + pose.y
  let sensorYaw := b2l.yaw + pose.yaw
  let acc := scan.ranges.enum.foldl
    (rateStep m cosF sinF scan minDist sensorX sensorY sensorYaw) (0, 0)
  if acc.1 = 0 then none else some ((acc.2 : ℚ) / (acc.1 : ℚ))

/-- Embeds `GLPoseSampler::computeMatchingRate` (Pose.h lines 941-975):
the scan used is `keyScans_[keyScans_.size() - 1]`, the LAST entry of
the window (Pose.h line 948).  On an empty window the source indexes out
of bounds; the sampler never calls it then, and we return `none`. -/
def computeMatchingRateQ (m : GridQ) (cosF sinF : ℚ → ℚ) (b2l : PoseQ)
    (minDist : ℚ) (keyScans : List ScanQ) (pose : PoseQ) : Option ℚ :=
  match keyScans.getLast? with
  | none => none
  | some scan => scanMatchingRate m cosF sinF b2l minDist scan pose

/-- Embeds the comparison `computeMatchingRate(...) < matchingRateTH_`
of Pose.h lines 1018 and 1036: when the rate is NaN (`none`) the IEEE
comparison is false, so the candidate is NOT rejected. -/
def verifyReject (rate : Option ℚ) (th : ℚ) : Bool :=
  match rate with
  | some q => q < th
  | none => false

/-- Sampling configuration of `GLPoseSampler::generatePoses`. -/
structure GenParams where
  addRandomSamples : Bool
  addOppositeSamples : Bool
  randomSamplesNum : Int
  matchingRateTH : ℚ
  deriving DecidableEq

/-- Embeds the sampling-and-verification tail of
`GLPoseSampler::generatePoses` (Pose.h lines 1016-1045) for one
correspondence whose base (body) pose is `base`.  The Box-Muller draws
`nrand(...)` are modelled by the input streams `nx`, `ny`, `nyaw`
(one value per sample index), as the spec's design notes prescribe for
testability. -/
def sampleAndVerify (gp : GenParams) (rateOf : PoseQ → Option ℚ) (piQ : ℚ)
    (nx ny nyaw : ℕ → ℚ) (base : PoseQ) : List PoseQ :=
  if gp.addRandomSamples = false then
    if gp.matchingRateTH > 0 ∧ verifyReject (rateOf base) gp.matchingRateTH then []
    else [base]
  else
    (List.range gp.randomSamplesNum.toNat).filterMap (fun j =>
      let x := base.x + nx j
      let y := base.y + ny j
      let yaw :=
        if gp.addOppositeSamples ∧ j % 2 = 1 then base.yaw + piQ + nyaw j
        else base.yaw + nyaw j
      let cand : PoseQ := ⟨x, y, yaw⟩
      if gp.matchingRateTH > 0 ∧ verifyReject (rateOf cand) gp.matchingRateTH then none
      else some cand)

/-- Candidate sensor pose of one correspondence, Pose.h lines 987-999:
rotate the odometry offset to the matched global keypoint by the
dominant-orientation difference. -/
def sensorCandidate (cosF sinF : ℚ → ℚ) (currentOdomPose : PoseQ)
    (localKp : Keypoint) (localDomOrient : ℚ) (targetKp : Keypoint)
    (targetDomOrient : ℚ) : ℚ × ℚ × ℚ :=
  let dx := localKp.x - currentOdomPose.x
  let dy := localKp.y - currentOdomPose.y
  let dOrient := currentOdomPose.yaw - localDomOrient
  let dDomOrient := localDomOrient - targetDomOrient
  let c := cosF dDomOrient
  let s := sinF dDomOrient
  (dx * c - dy * s + targetKp.x, dx * s + dy * c + targetKp.y,
   targetDomOrient + dOrient)

/-- Candidate body pose undoing the sensor offset, Pose.h lines
1009-1014. -/
def bodyPose (cosF sinF : ℚ → ℚ) (b2l : PoseQ)
    (sensorX sensorY sensorYaw : ℚ) : PoseQ :=
  let bc := cosF b2l.yaw
  let bs := sinF b2l.yaw
  ⟨sensorX - b2l.x * bc + b2l.y * bs,
   sensorY - b2l.x * bs - b2l.y * bc,
   sensorYaw - b2l.yaw⟩

/-- Embeds the per-correspondence body of `GLPoseSampler::generatePoses`
(Pose.h lines 982-1045): compute the candidate sensor pose, discard it
when it projects out of bounds or onto a cell whose occupancy value is
not 0 (lines 1001-1007), otherwise derive the body pose and run
sampling and verification. -/
def posesForMatch (m : GridQ) (cosF sinF : ℚ → ℚ) (b2l : PoseQ)
    (gp : GenParams) (piQ : ℚ) (rateOf : PoseQ → Option ℚ)
    (nx ny nyaw : ℕ → ℚ) (currentOdomPose : PoseQ) (localKp : Keypoint)
    (localDomOrient : ℚ) (targetKp : Keypoint) (targetDomOrient : ℚ) :
    List PoseQ :=
  let sc := sensorCandidate cosF sinF currentOdomPose localKp localDomOrient
    targetKp targetDomOrient
  let uv := xy2uv m cosF sinF sc.1 sc.2.1
  if uv.1 < 0 ∨ m.width ≤ uv.1 ∨ uv.2 < 0 ∨ m.height ≤ uv.2 then []
  else if m.data (uv.2 * m.width + uv.1) ≠ 0 then []
  else
    sampleAndVerify gp rateOf piQ nx ny nyaw
      (bodyPose cosF sinF b2l sc.1 sc.2.1 sc.2.2)

/-- Parameters of the keyframe logic of `GLPoseSampler::scanCB`
(`key_scans_num`, `key_scan_interval_dist`, `key_scan_interval_yaw`
already converted to radians) together with the `M_PI` stand-in. -/
structure SamplerParams where
  keyScansNum : Int
  keyScanIntervalDist : ℚ
  keyScanIntervalYaw : ℚ
  piQ : ℚ
  deriving DecidableEq

/-- Mutable state read and written by `GLPoseSampler::scanCB` and
`odomCB` (Pose.h lines 1050-1111 and 820-830): the keyframe window, the
static `prevOdomPose` and `isFirst` of `scanCB`, and the odometry
fields. -/
structure SamplerState where
  keyScans : List ScanQ
  keyPoses : List PoseQ
  prevOdom : PoseQ
  isFirst : Bool
  gotOdom : Bool
  odomPose : PoseQ
  deriving DecidableEq

/-- Initial state: empty window, `isFirst = true`, no odometry yet,
`odomPose_.setPose(0.0, 0.0, 0.0)` from the constructor (Pose.h
line 660), and the default-constructed static `prevOdomPose`. -/
def samplerInit : SamplerState :=
  ⟨[], [], ⟨0, 0, 0⟩, true, false, ⟨0, 0, 0⟩⟩

/-- Count of in-range beams of `GLPoseSampler::scanCB`
(Pose.h lines 1054-1059). -/
def validScanNumQ (msg : ScanQ) : ℕ :=
  msg.ranges.countP (fun r => decide (msg.rangeMin ≤ r ∧ r ≤ msg.rangeMax))

/-- Embeds the early-return test of Pose.h lines 1060-1064.  The source
computes `validScanNum / ranges.size() < 0.1` in floating point; on an
empty scan that quotient is NaN and the comparison is false, hence the
explicit nonempty conjunct. -/
def scanInvalid (msg : ScanQ) : Bool :=
  !msg.ranges.isEmpty &&
    ((validScanNumQ msg : ℚ) / (msg.ranges.length : ℚ) < 1 / 10)

/-- Embeds the keyframe trigger of Pose.h lines 1074-1083: displacement
`sqrt(dx*dx + dy*dy) > keyScanIntervalDist_` — compared here in squared
form, equivalent for the nonnegative threshold the source is configured
with — or wrapped yaw difference above `keyScanIntervalYaw_`. -/
def keyScanTrigger (p : SamplerParams) (st : SamplerState) : Bool :=
  let dx := st.odomPose.x - st.prevOdom.x
  let dy := st.odomPose.y - st.prevOdom.y
  let dyaw := modifyYawQ p.piQ (st.odomPose.yaw - st.prevOdom.yaw)
  decide (dx * dx + dy * dy >
      p.keyScanIntervalDist * p.keyScanIntervalDist) ||
    decide (|dyaw| > p.keyScanIntervalYaw)

/-- Embeds `GLPoseSampler::scanCB` (Pose.h lines 1050-1111) as a state
transition.  The Boolean result records whether the publication block of
lines 1094-1110 runs for this scan (its payload construction is the
downstream pipeline and is not part of the window bookkeeping the claims
address).  `keyScans_.resize(n)` on a vector that grew by one past `n`
keeps the first `n` entries, hence `List.take`. -/
def scanStep (p : SamplerParams) (st : SamplerState) (msg : ScanQ) :
    SamplerState × Bool :=
  if scanInvalid msg then (st, false)
  else if st.isFirst && st.gotOdom then
    ({ st with keyScans := st.keyScans ++ [msg],
               keyPoses := st.keyPoses ++ [st.odomPose],
               prevOdom := setPoseNorm p.piQ st.odomPose,
               isFirst := false }, false)
  else if keyScanTrigger p st then
    let ks := msg :: st.keyScans
    let kp := st.odomPose :: st.keyPoses
    let ks2 := if (ks.length : Int) ≥ p.keyScansNum then ks.take p.keyScansNum.toNat else ks
    let kp2 := if (ks.length : Int) ≥ p.keyScansNum then kp.take p.keyScansNum.toNat else kp
    ({ st with keyScans := ks2, keyPoses := kp2,
               prevOdom := setPoseNorm p.piQ st.odomPose },
     decide ((ks2.length : Int) = p.keyScansNum))
  else (st, false)

/-- Embeds `GLPoseSampler::odomCB` (Pose.h lines 820-830): store the
(yaw-normalised) odometry pose and set `gotOdom_`. -/
def odomStep (p : SamplerParams) (st : SamplerState) (o : PoseQ) :
    SamplerState :=
  { st with odomPose := setPoseNorm p.piQ o, gotOdom := true }

/-- Input events of the sampler: odometry updates and scans. -/
inductive SamplerEvent where
  | odomEv (o : PoseQ)
  | scanEv (msg : ScanQ)

/-- Runs the sampler callbacks over a sequence of events from the
initial state. -/
def runSampler (p : SamplerParams) (events : List SamplerEvent) :
    SamplerState :=
  events.foldl
    (fun st e =>
      match e with
      | SamplerEvent.odomEv o => odomStep p st o
      | SamplerEvent.scanEv msg => (scanStep p st msg).1)
    samplerInit

/-- State invariant of the sampler maintained by every event: window
length bound and alignment, emptiness before the first keyframe, default
poses before the first odometry message, and — once a keyframe exists —
`prevOdomPose` equals the (yaw-normalised) pose of the newest retained
keyframe, the reference point of the displacement trigger. -/
def SamplerInv (p : SamplerParams) (st : SamplerState) : Prop :=
  (st.keyScans.length : Int) ≤ p.keyScansNum ∧
  st.keyScans.length = st.keyPoses.length ∧
  (st.isFirst = true → st.keyScans = [] ∧ st.keyPoses = [] ∧
    st.prevOdom = ⟨0, 0, 0⟩) ∧
  (st.gotOdom = false → st.odomPose = ⟨0, 0, 0⟩) ∧
  (st.isFirst = false → st.keyPoses.head?.map (setPoseNorm p.piQ) = some st.prevOdom)

/-- Number of beams of a scan passing the validity test of
`computeMatchingRate` (Pose.h lines 952-958), counted over the indexed
beam list. -/
def validBeamCount (scan : ScanQ) (minDist : ℚ) : ℕ :=
  scan.ranges.enum.countP (fun ir => beamValid scan minDist ir.2)

/-- Number of valid beams whose terminal cell or one of its four
neighbours is occupied (Pose.h lines 959-972). -/
def matchedBeamCount (m : GridQ) (cosF sinF : ℚ → ℚ) (b2l : PoseQ)
    (minDist : ℚ) (scan : ScanQ) (pose : PoseQ) : ℕ :=
  let c := cosF b2l.yaw
  let s := sinF b2l.yaw
  let sensorX := b2l.x * c - b2l.y * s + pose.x
  let sensorY := b2l.x * s + b2l.y * c + pose.y
  let sensorYaw := b2l.yaw + pose.yaw
  scan.ranges.enum.countP (fun ir =>
    beamValid scan minDist ir.2 &&
      beamMatches m (beamEndUV m cosF sinF scan sensorX sensorY sensorYaw ir.1 ir.2))

/-- Fold of the best/second-best bookkeeping over an explicit candidate
list, used to state that the matcher looks only at considered
candidates. -/
def candsFold (cands : List (Int × Int)) : MatchState :=
  cands.foldl (fun st js => matchBody st js.1 js.2) matchInit

/-- A 3x3 all-free grid used as a concrete test input. -/
def gridSaddle : GridQ :=
  ⟨3, 3, 1, 0, 0, 0, fun _ => 0⟩

/-- Distance field on `gridSaddle` whose interior cell (1,1) has
gradient (1,1) and Hessian determinant -3: a saddle whose squared
gradient components are each below 2 while their sum is 2. -/
def distSaddle : Int → Int → ℚ := fun v u =>
  if (v = 1 ∧ u = 2) ∨ (v = 2 ∧ u = 1) then 11 else 10

/-- Stand-in for `cos` on inputs where the source only ever evaluates it
at angle 0 in the concrete test scenarios. -/
def cosOne : ℚ → ℚ := fun _ => 1

/-- Stand-in for `sin` matching `cosOne`. -/
def sinZero : ℚ → ℚ := fun _ => 0

/-- Concrete local feature for the matcher scenarios. -/
def localFeatC2 : TypedFeature :=
  ⟨1, some 0, List.replicate 17 0⟩

/-- Concrete global feature list whose histogram L1 scores against
`localFeatC2` are 5, 10 and 7 in scan order. -/
def globalsC2 : List TypedFeature :=
  [⟨1, some 0, 5 :: List.replicate 16 0⟩,
   ⟨1, some 0, 10 :: List.replicate 16 0⟩,
   ⟨1, some 0, 7 :: List.replicate 16 0⟩]

/-- Concrete 8x3 grid with a single occupied cell at (u,v) = (5,1). -/
def gridC4 : GridQ :=
  ⟨8, 3, 1, 0, 0, 0, fun n => if n = 13 then 100 else 0⟩

/-- Older keyframe scan: its single beam of range 5 terminates on the
occupied cell of `gridC4` when cast from `poseC4`. -/
def sOldC4 : ScanQ := ⟨0, 0, 1, 10, [5]⟩

/-- Newer keyframe scan: its single beam of range 2 terminates on a free
cell of `gridC4` when cast from `poseC4`. -/
def sNewC4 : ScanQ := ⟨0, 0, 1, 10, [2]⟩

/-- Candidate pose for the matching-rate scenarios. -/
def poseC4 : PoseQ := ⟨0, 3/2, 0⟩

/-- Concrete 3x1 grid whose middle cell is unknown (-1) and whose other
cells are free; no cell is occupied. -/
def gridC5 : GridQ :=
  ⟨3, 1, 1, 0, 0, 0, fun n => if n = 1 then -1 else 0⟩

/-- Pose-generation parameters with random sampling and verification
switched off. -/
def gpC5 : GenParams := ⟨false, false, 0, 0⟩

/-- Local keypoint whose candidate sensor pose lands on the unknown cell
of `gridC5`. -/
def kpLocalC5 : Keypoint := ⟨0, 0, 3/2, 0, 1⟩

/-- Matched global keypoint at the origin of `gridC5`. -/
def kpTargetC5 : Keypoint := ⟨0, 0, 0, 0, 1⟩

/-- A scan with one beam of range 0, below `range_min = 1`: its in-range
fraction is 0 < 0.1. -/
def scanLowC6 : ScanQ := ⟨0, 0, 1, 10, [0]⟩

/-- A scan whose single beam of range 1/2 is below `range_min = 1`, so
no beam is valid during verification. -/
def scanNoValidC8 : ScanQ := ⟨0, 0, 1, 10, [1/2]⟩

/-- Invariant of the best/second-best fold after processing a nonempty
considered-candidate list: the loop is past its first iteration, `min1`
is exactly the minimum considered score and `(idx1, min1)` is one of the
candidates, `isSecond` tracks whether only one candidate was seen, and
`min2` is -1 for a single candidate and nonnegative from two on. -/
def MatchInv (cands : List (Int × Int)) (st : MatchState) : Prop :=
  st.isFirst = false ∧ 0 ≤ st.min1 ∧ (st.idx1, st.min1) ∈ cands ∧
  (∀ p ∈ cands, st.min1 ≤ p.2) ∧
  (st.isSecond = true ↔ cands.length = 1) ∧
  (cands.length = 1 → st.min2 = -1) ∧
  (2 ≤ cands.length → 0 ≤ st.min2)

/-- Concrete sampler parameters: the source defaults
(`key_scans_num = 5`, 0.5 m, 5 degrees in radians approximated
rationally) with a rational stand-in for pi. -/
def pC3 : SamplerParams := ⟨5, 1/2, 1/10, 355/113⟩

/-- Membership in the interior loop range: exactly the indices
`1 .. n - 2`. -/
theorem interiorRange_mem {n a : Int} : a ∈ interiorRange n ↔ 1 ≤ a ∧ a ≤ n - 2 := by
  constructor
  · intro h
    rw [interiorRange] at h
    obtain ⟨i, hi, rfl⟩ := List.mem_map.mp h
    have hr := List.mem_range.mp hi
    omega
  · intro hb
    rw [interiorRange]
    exact List.mem_map.mpr ⟨(a - 1).toNat, List.mem_range.mpr (by omega), by omega⟩

/-- A keypoint is produced by `detectKeypoints` exactly when some
interior cell produces it. -/
theorem mem_detectKeypoints {g : GridQ} {dist : Int → Int → ℚ} {cy sy gradTH minDist : ℚ}
    {kp : Keypoint} :
    kp ∈ detectKeypoints g dist cy sy gradTH minDist ↔
      ∃ u v, (1 ≤ u ∧ u ≤ g.width - 2) ∧ (1 ≤ v ∧ v ≤ g.height - 2) ∧
        cellKeypoint g dist cy sy gradTH minDist u v = some kp := by
  constructor
  · intro h
    obtain ⟨u, hu, hin⟩ := List.mem_flatMap.mp h
    obtain ⟨v, hv, hc⟩ := List.mem_filterMap.mp hin
    exact ⟨u, v, interiorRange_mem.mp hu, interiorRange_mem.mp hv, hc⟩
  · rintro ⟨u, v, hu, hv, hc⟩
    exact List.mem_flatMap.mpr ⟨u, interiorRange_mem.mpr hu,
      List.mem_filterMap.mpr ⟨v, interiorRange_mem.mpr hv, hc⟩⟩

/-- Inversion of the per-cell detector body: any produced keypoint
carries the cell coordinates, a free cell, an admissible distance value,
a non-default type, and the componentwise flatness bounds. -/
theorem cellKeypoint_inv {g : GridQ} {dist : Int → Int → ℚ} {cy sy gradTH minDist : ℚ}
    {u v : Int} {kp : Keypoint}
    (h : cellKeypoint g dist cy sy gradTH minDist u v = some kp) :
    kp.u = u ∧ kp.v = v ∧ g.data (v * g.width + u) = 0 ∧ minDist ≤ dist v u ∧
      (kp.type = 1 ∨ kp.type = -1 ∨ kp.type = 0) ∧
      sobelDx dist u v * sobelDx dist u v < gradTH ∧
      sobelDy dist u v * sobelDy dist u v < gradTH := by
  simp only [cellKeypoint] at h
  split_ifs at h with h1 h2 h3 h4 h5
  · obtain rfl := Option.some.inj h
    push_neg at h1
    exact ⟨rfl, rfl, h1.1, h1.2, Or.inl rfl, h2.1, h2.2⟩
  · obtain rfl := Option.some.inj h
    push_neg at h1
    exact ⟨rfl, rfl, h1.1, h1.2, Or.inr (Or.inl rfl), h2.1, h2.2⟩
  · obtain rfl := Option.some.inj h
    push_neg at h1
    exact ⟨rfl, rfl, h1.1, h1.2, Or.inr (Or.inr rfl), h2.1, h2.2⟩

/-- C1: for every considered cell (interior, free, distance at least the
minimum threshold) passing the gradient-flatness test, the emitted
classification is exactly determined by the signs of
`det = dxx*dyy - dxy^2` and `dxx`: Maximum (1) for `det > 0, dxx < 0`,
Minimum (-1) for `det > 0, dxx > 0`, Saddle (0) for `det < 0`, and no
keypoint for `det = 0` or `det > 0, dxx = 0`. -/
theorem C1_classification (g : GridQ) (dist : Int → Int → ℚ) (cy sy gradTH minDist : ℚ)
    (u v : Int) (hu1 : 1 ≤ u) (hu2 : u ≤ g.width - 2) (hv1 : 1 ≤ v) (hv2 : v ≤ g.height - 2)
    (hfree : g.data (v * g.width + u) = 0) (hdist : minDist ≤ dist v u)
    (hflat : sobelDx dist u v * sobelDx dist u v < gradTH ∧
             sobelDy dist u v * sobelDy dist u v < gradTH) :
    (hessDxx dist u v * hessDyy dist u v - hessDxy dist u v * hessDxy dist u v > 0 →
       hessDxx dist u v < 0 →
       Keypoint.mk u v (keypointWorld g cy sy u v).1 (keypointWorld g cy sy u v).2 1 ∈
         detectKeypoints g dist cy sy gradTH minDist) ∧
    (hessDxx dist u v * hessDyy dist u v - hessDxy dist u v * hessDxy dist u v > 0 →
       hessDxx dist u v > 0 →
       Keypoint.mk u v (keypointWorld g cy sy u v).1 (keypointWorld g cy sy u v).2 (-1) ∈
         detectKeypoints g dist cy sy gradTH minDist) ∧
    (hessDxx dist u v * hessDyy dist u v - hessDxy dist u v * hessDxy dist u v < 0 →
       Keypoint.mk u v (keypointWorld g cy sy u v).1 (keypointWorld g cy sy u v).2 0 ∈
         detectKeypoints g dist cy sy gradTH minDist) ∧
    ((hessDxx dist u v * hessDyy dist u v - hessDxy dist u v * hessDxy dist u v = 0 ∨
      (hessDxx dist u v * hessDyy dist u v - hessDxy dist u v * hessDxy dist u v > 0 ∧
       hessDxx dist u v = 0)) →
       ∀ kp ∈ detectKeypoints g dist cy sy gradTH minDist, ¬(kp.u = u ∧ kp.v = v)) := by
  have hgate : ¬(g.data (v * g.width + u) ≠ 0 ∨ dist v u < minDist) := by
    push_neg
    exact ⟨hfree, hdist⟩
  refine ⟨?_, ?_, ?_, ?_⟩
  · intro hdet hdxx
    refine mem_detectKeypoints.mpr ⟨u, v, ⟨hu1, hu2⟩, ⟨hv1, hv2⟩, ?_⟩
    simp only [cellKeypoint]
    rw [if_neg hgate, if_pos hflat, if_pos ⟨hdet, hdxx⟩]
  · intro hdet hdxx
    refine mem_detectKeypoints.mpr ⟨u, v, ⟨hu1, hu2⟩, ⟨hv1, hv2⟩, ?_⟩
    simp only [cellKeypoint]
    rw [if_neg hgate, if_pos hflat, if_neg (by rintro ⟨-, hc⟩; linarith),
      if_pos ⟨hdet, hdxx⟩]
  · intro hdet
    refine mem_detectKeypoints.mpr ⟨u, v, ⟨hu1, hu2⟩, ⟨hv1, hv2⟩, ?_⟩
    simp only [cellKeypoint]
    rw [if_neg hgate, if_pos hflat, if_neg (by rintro ⟨hc, -⟩; linarith),
      if_neg (by rintro ⟨hc, -⟩; linarith), if_pos hdet]
  · intro hdeg kp hm ⟨hku, hkv⟩
    have hnone : cellKeypoint g dist cy sy gradTH minDist u v = none := by
      simp only [cellKeypoint]
      rw [if_neg hgate, if_pos hflat]
      rcases hdeg with hz | ⟨hpos, hzx⟩
      · rw [if_neg (by rintro ⟨hc, -⟩; linarith), if_neg (by rintro ⟨hc, -⟩; linarith),
          if_neg (by intro hc; linarith)]
      · rw [if_neg (by rintro ⟨-, hc⟩; linarith), if_neg (by rintro ⟨-, hc⟩; linarith),
          if_neg (by intro hc; linarith)]
    obtain ⟨u2, v2, hu2b, hv2b, hc⟩ := mem_detectKeypoints.mp hm
    obtain ⟨hqu, hqv, -⟩ := cellKeypoint_inv hc
    rw [hku] at hqu
    rw [hkv] at hqv
    rw [hqu, hqv] at hnone
    rw [hc] at hnone
    exact Option.noConfusion hnone

/-- C10: every keypoint returned by `detectKeypoints` has a
classification in {1, -1, 0} (never the default Invalid -2), interior
grid coordinates `1 <= u <= width-2`, `1 <= v <= height-2`, and indexes
a free cell whose distance-field value is at least the minimum-distance
threshold. -/
theorem C10_detector_invariants (g : GridQ) (dist : Int → Int → ℚ)
    (cy sy gradTH minDist : ℚ) :
    ∀ kp ∈ detectKeypoints g dist cy sy gradTH minDist,
      (kp.type = 1 ∨ kp.type = -1 ∨ kp.type = 0) ∧
      1 ≤ kp.u ∧ kp.u ≤ g.width - 2 ∧ 1 ≤ kp.v ∧ kp.v ≤ g.height - 2 ∧
      g.data (kp.v * g.width + kp.u) = 0 ∧ minDist ≤ dist kp.v kp.u := by
  intro kp hm
  obtain ⟨u, v, hu, hv, hc⟩ := mem_detectKeypoints.mp hm
  obtain ⟨hqu, hqv, hfree, hdist, htype, -, -⟩ := cellKeypoint_inv hc
  subst hqu
  subst hqv
  exact ⟨htype, hu.1, hu.2, hv.1, hv.2, hfree, hdist⟩

/-- C9 (amended): the detector admits a cell only if EACH squared
gradient component `dx^2`, `dy^2` is below the flatness threshold (the
source tests the components separately, not the squared magnitude
`dx^2 + dy^2` the claim states); a cell failing the componentwise test
produces no keypoint. -/
theorem C9_flatness_componentwise (g : GridQ) (dist : Int → Int → ℚ)
    (cy sy gradTH minDist : ℚ) (u v : Int) :
    (∀ kp, cellKeypoint g dist cy sy gradTH minDist u v = some kp →
       sobelDx dist u v * sobelDx dist u v < gradTH ∧
       sobelDy dist u v * sobelDy dist u v < gradTH) ∧
    (¬(sobelDx dist u v * sobelDx dist u v < gradTH ∧
       sobelDy dist u v * sobelDy dist u v < gradTH) →
       cellKeypoint g dist cy sy gradTH minDist u v = none ∧
       ∀ kp ∈ detectKeypoints g dist cy sy gradTH minDist, ¬(kp.u = u ∧ kp.v = v)) := by
  constructor
  · intro kp hc
    obtain ⟨-, -, -, -, -, hx, hy⟩ := cellKeypoint_inv hc
    exact ⟨hx, hy⟩
  · intro hnf
    have hnone : cellKeypoint g dist cy sy gradTH minDist u v = none := by
      simp only [cellKeypoint]
      split_ifs <;> rfl
    refine ⟨hnone, ?_⟩
    intro kp hm ⟨hku, hkv⟩
    obtain ⟨u2, v2, hu2b, hv2b, hc⟩ := mem_detectKeypoints.mp hm
    obtain ⟨hqu, hqv, -⟩ := cellKeypoint_inv hc
    rw [hku] at hqu
    rw [hkv] at hqv
    rw [hqu, hqv] at hnone
    rw [hc] at hnone
    exact Option.noConfusion hnone

/-- Witness for C1 at the concrete saddle cell of `distSaddle`. -/
theorem C1_classification_witness :
    Keypoint.mk 1 1 (keypointWorld gridSaddle 1 0 1 1).1 (keypointWorld gridSaddle 1 0 1 1).2 0 ∈
      detectKeypoints gridSaddle distSaddle 1 0 2 1 :=
  (C1_classification gridSaddle distSaddle 1 0 2 1 1 1 (by norm_num) (by norm_num [gridSaddle])
    (by norm_num) (by norm_num [gridSaddle]) (by norm_num [gridSaddle]) (by norm_num [distSaddle])
    (by norm_num [sobelDx, sobelDy, distSaddle])).2.2.1
    (by norm_num [hessDxx, hessDyy, hessDxy, distSaddle])

/-- Witness for the amended C9 at the concrete saddle cell. -/
theorem C9_flatness_componentwise_witness :
    sobelDx distSaddle 1 1 * sobelDx distSaddle 1 1 < 2 ∧
    sobelDy distSaddle 1 1 * sobelDy distSaddle 1 1 < 2 :=
  (C9_flatness_componentwise gridSaddle distSaddle 1 0 2 1 1 1).1 ⟨1, 1, 1, 1, 0⟩
    (by norm_num [cellKeypoint, gridSaddle, distSaddle, sobelDx, sobelDy, hessDxx, hessDyy,
      hessDxy, keypointWorld])

/-- Witness for C10 at the concrete saddle keypoint. -/
theorem C10_detector_invariants_witness :
    ((Keypoint.mk 1 1 1 1 0).type = 1 ∨ (Keypoint.mk 1 1 1 1 0).type = -1 ∨
      (Keypoint.mk 1 1 1 1 0).type = 0) ∧
    1 ≤ (Keypoint.mk 1 1 1 1 0).u ∧ (Keypoint.mk 1 1 1 1 0).u ≤ gridSaddle.width - 2 ∧
    1 ≤ (Keypoint.mk 1 1 1 1 0).v ∧ (Keypoint.mk 1 1 1 1 0).v ≤ gridSaddle.height - 2 ∧
    gridSaddle.data ((Keypoint.mk 1 1 1 1 0).v * gridSaddle.width + (Keypoint.mk 1 1 1 1 0).u) = 0 ∧
    (1 : ℚ) ≤ distSaddle (Keypoint.mk 1 1 1 1 0).v (Keypoint.mk 1 1 1 1 0).u :=
  C10_detector_invariants gridSaddle distSaddle 1 0 2 1 ⟨1, 1, 1, 1, 0⟩
    (by norm_num [detectKeypoints, gridSaddle, interiorRange, cellKeypoint, distSaddle,
      sobelDx, sobelDy, hessDxx, hessDyy, hessDxy, keypointWorld])

/-- Wrapping a zero angle difference is the identity for a positive pi
stand-in. -/
theorem modifyYawQ_zero (q : ℚ) (hq : 0 < q) : modifyYawQ q 0 = 0 := by
  have h1 : ¬(0 : ℚ) < -q := by linarith
  have h2 : ¬(0 : ℚ) > q := by linarith
  have hf : wrapFuel q 0 = 2 := by simp [wrapFuel]
  rw [modifyYawQ, hf]
  simp [yawUp, yawDown, h1, h2]

/-- The initial sampler state satisfies the invariant. -/
theorem samplerInv_init (p : SamplerParams) (hN : 1 ≤ p.keyScansNum) :
    SamplerInv p samplerInit := by
  refine ⟨by simp [samplerInit]; omega, rfl, fun _ => ⟨rfl, rfl, rfl⟩, fun _ => rfl, ?_⟩
  intro h
  simp [samplerInit] at h

/-- The odometry callback preserves the sampler invariant. -/
theorem samplerInv_odom (p : SamplerParams) (st : SamplerState) (o : PoseQ)
    (h : SamplerInv p st) : SamplerInv p (odomStep p st o) := by
  obtain ⟨hlen, halign, hfirst, hodom, hhead⟩ := h
  refine ⟨hlen, halign, hfirst, ?_, hhead⟩
  intro hg
  simp [odomStep] at hg

/-- Before any odometry message the displacement trigger cannot fire:
both poses are the all-zero default. -/
theorem keyScanTrigger_initial (p : SamplerParams) (st : SamplerState)
    (hy : 0 ≤ p.keyScanIntervalYaw) (hpi : 0 < p.piQ)
    (hprev : st.prevOdom = ⟨0, 0, 0⟩) (hcur : st.odomPose = ⟨0, 0, 0⟩) :
    keyScanTrigger p st = false := by
  rw [keyScanTrigger, hprev, hcur]
  simp only [Bool.or_eq_false_iff, decide_eq_false_iff_not]
  constructor
  · simp only [sub_self, mul_zero, add_zero, zero_mul, zero_add]
    push_neg
    exact mul_self_nonneg _
  · simp only [sub_self]
    rw [modifyYawQ_zero p.piQ hpi]
    simp only [abs_zero]
    exact not_lt.mpr hy

/-- The scan callback preserves the sampler invariant. -/
theorem samplerInv_scan (p : SamplerParams) (hN : 1 ≤ p.keyScansNum)
    (hy : 0 ≤ p.keyScanIntervalYaw) (hpi : 0 < p.piQ)
    (st : SamplerState) (msg : ScanQ) (h : SamplerInv p st) :
    SamplerInv p (scanStep p st msg).1 := by
  obtain ⟨hlen, halign, hfirst, hodom, hhead⟩ := h
  by_cases hinv : scanInvalid msg = true
  · have hstep : (scanStep p st msg).1 = st := by
      rw [scanStep]
      simp [hinv]
    rw [hstep]
    exact ⟨hlen, halign, hfirst, hodom, hhead⟩
  · rw [Bool.not_eq_true] at hinv
    by_cases hf : st.isFirst = true
    · by_cases hg : st.gotOdom = true
      · have hstep : (scanStep p st msg).1 =
            { st with keyScans := st.keyScans ++ [msg],
                      keyPoses := st.keyPoses ++ [st.odomPose],
                      prevOdom := setPoseNorm p.piQ st.odomPose,
                      isFirst := false } := by
          rw [scanStep]
          simp [hinv, hf, hg]
        obtain ⟨hks, hkp, -⟩ := hfirst hf
        rw [hstep]
        refine ⟨?_, ?_, ?_, ?_, ?_⟩
        · simp only [List.length_append, hks, List.length_nil, List.length_cons]
          simpa using hN
        · simp [halign]
        · intro hcontra
          simp at hcontra
        · intro hg2
          simp only at hg2
          rw [hg2] at hg
          exact Bool.noConfusion hg
        · intro _
          simp [hkp]
      · have hgf : st.gotOdom = false := by
          rwa [Bool.not_eq_true] at hg
        have htr : keyScanTrigger p st = false :=
          keyScanTrigger_initial p st hy hpi (hfirst hf).2.2 (hodom hgf)
        have hstep : (scanStep p st msg).1 = st := by
          rw [scanStep]
          simp [hinv, hf, hgf, htr]
        rw [hstep]
        exact ⟨hlen, halign, hfirst, hodom, hhead⟩
    · have hff : st.isFirst = false := by
        rwa [Bool.not_eq_true] at hf
      by_cases htr : keyScanTrigger p st = true
      · have hstep : (scanStep p st msg).1 =
            { st with
                keyScans := if p.keyScansNum ≤ (st.keyScans.length : Int) + 1
                  then (msg :: st.keyScans).take p.keyScansNum.toNat
                  else msg :: st.keyScans,
                keyPoses := if p.keyScansNum ≤ (st.keyScans.length : Int) + 1
                  then (st.odomPose :: st.keyPoses).take p.keyScansNum.toNat
                  else st.odomPose :: st.keyPoses,
                prevOdom := setPoseNorm p.piQ st.odomPose } := by
          rw [scanStep]
          simp [hinv, hff, htr]
        rw [hstep]
        by_cases hc : p.keyScansNum ≤ (st.keyScans.length : Int) + 1
        · obtain ⟨m, hm⟩ : ∃ m, p.keyScansNum.toNat = m + 1 :=
            ⟨p.keyScansNum.toNat - 1, by omega⟩
          refine ⟨?_, ?_, ?_, ?_, ?_⟩
          · simp only [if_pos hc, List.length_take, List.length_cons]
            omega
          · rw [if_pos hc, if_pos hc]
            simp [halign]
          · intro hcontra
            simp only at hcontra
            rw [hcontra] at hff
            exact Bool.noConfusion hff
          · intro hg2
            simp only at hg2
            exact hodom hg2
          · intro _
            simp only [if_pos hc, hm, List.take_succ_cons, List.head?_cons]
            rfl
        · refine ⟨?_, ?_, ?_, ?_, ?_⟩
          · simp only [if_neg hc, List.length_cons]
            push_neg at hc
            omega
          · rw [if_neg hc, if_neg hc]
            simp [halign]
          · intro hcontra
            simp only at hcontra
            rw [hcontra] at hff
            exact Bool.noConfusion hff
          · intro hg2
            simp only at hg2
            exact hodom hg2
          · intro _
            simp only [if_neg hc, List.head?_cons]
            rfl
      · have htrf : keyScanTrigger p st = false := by
          rwa [Bool.not_eq_true] at htr
        have hstep : (scanStep p st msg).1 = st := by
          rw [scanStep]
          simp [hinv, hff, htrf]
        rw [hstep]
        exact ⟨hlen, halign, hfirst, hodom, hhead⟩

/-- Every state reachable from the initial state satisfies the sampler
invariant. -/
theorem samplerInv_run (p : SamplerParams) (hN : 1 ≤ p.keyScansNum)
    (hy : 0 ≤ p.keyScanIntervalYaw) (hpi : 0 < p.piQ) (es : List SamplerEvent) :
    SamplerInv p (runSampler p es) := by
  rw [runSampler]
  have h : ∀ (l : List SamplerEvent) (st : SamplerState), SamplerInv p st →
      SamplerInv p (l.foldl (fun st e =>
        match e with
        | SamplerEvent.odomEv o => odomStep p st o
        | SamplerEvent.scanEv msg => (scanStep p st msg).1) st) := by
    intro l
    induction l with
    | nil => exact fun st hst => hst
    | cons e rest ih =>
      intro st hst
      rcases e with o | msg
      · exact ih _ (samplerInv_odom p st o hst)
      · exact ih _ (samplerInv_scan p hN hy hpi st msg hst)
  exact h es samplerInit (samplerInv_init p hN)

/-- C3: at every reachable state the keyframe window holds at most
`key_scans_num` entries (with scans and poses aligned, and the
displacement reference `prevOdomPose` equal to the newest retained
keyframe pose); once the first keyframe is recorded, the window changes
only for a valid scan whose displacement trigger fires, and an insertion
prepends the new entry and truncates at the back to capacity — i.e. the
window is newest-first and the oldest entries are the ones dropped. -/
theorem C3_keyframe_window (p : SamplerParams) (hN : 1 ≤ p.keyScansNum)
    (hy : 0 ≤ p.keyScanIntervalYaw) (hpi : 0 < p.piQ) :
    (∀ es : List SamplerEvent, SamplerInv p (runSampler p es)) ∧
    (∀ (st : SamplerState) (msg : ScanQ), st.isFirst = false →
      st.keyScans.length = st.keyPoses.length →
      ((scanStep p st msg).1.keyScans ≠ st.keyScans ∨
          (scanStep p st msg).1.keyPoses ≠ st.keyPoses →
        scanInvalid msg = false ∧ keyScanTrigger p st = true) ∧
      (scanInvalid msg = false → keyScanTrigger p st = true →
        (scanStep p st msg).1.keyScans =
          (msg :: st.keyScans).take (min p.keyScansNum.toNat (st.keyScans.length + 1)) ∧
        (scanStep p st msg).1.keyPoses =
          (st.odomPose :: st.keyPoses).take
            (min p.keyScansNum.toNat (st.keyPoses.length + 1)))) := by
  constructor
  · exact samplerInv_run p hN hy hpi
  intro st msg hff halign
  constructor
  · intro hchange
    by_cases hinv : scanInvalid msg = true
    · have hstep : (scanStep p st msg).1 = st := by
        rw [scanStep]
        simp [hinv]
      rw [hstep] at hchange
      rcases hchange with hx | hx <;> exact absurd rfl hx
    · rw [Bool.not_eq_true] at hinv
      by_cases htr : keyScanTrigger p st = true
      · exact ⟨hinv, htr⟩
      · rw [Bool.not_eq_true] at htr
        have hstep : (scanStep p st msg).1 = st := by
          rw [scanStep]
          simp [hinv, hff, htr]
        rw [hstep] at hchange
        rcases hchange with hx | hx <;> exact absurd rfl hx
  · intro hinv htr
    have hstep : (scanStep p st msg).1 =
        { st with
            keyScans := if p.keyScansNum ≤ (st.keyScans.length : Int) + 1
              then (msg :: st.keyScans).take p.keyScansNum.toNat
              else msg :: st.keyScans,
            keyPoses := if p.keyScansNum ≤ (st.keyScans.length : Int) + 1
              then (st.odomPose :: st.keyPoses).take p.keyScansNum.toNat
              else st.odomPose :: st.keyPoses,
            prevOdom := setPoseNorm p.piQ st.odomPose } := by
      rw [scanStep]
      simp [hinv, hff, htr]
    rw [hstep]
    constructor
    · simp only
      by_cases hc : p.keyScansNum ≤ (st.keyScans.length : Int) + 1
      · rw [if_pos hc, min_eq_left (by omega)]
      · rw [if_neg hc, min_eq_right (by omega)]
        rw [show st.keyScans.length + 1 = (msg :: st.keyScans).length by simp]
        rw [List.take_length]
    · simp only
      by_cases hc : p.keyScansNum ≤ (st.keyScans.length : Int) + 1
      · rw [if_pos hc, min_eq_left (by omega)]
      · rw [if_neg hc, min_eq_right (by omega)]
        rw [show st.keyPoses.length + 1 = (st.odomPose :: st.keyPoses).length by simp]
        rw [List.take_length]

/-- Witness for C3 at the concrete default parameters and the empty
trace. -/
theorem C3_keyframe_window_witness :
    SamplerInv pC3 (runSampler pC3 []) :=
  (C3_keyframe_window pC3 (by norm_num [pC3]) (by norm_num [pC3]) (by norm_num [pC3])).1 []

/-- The per-beam fold of `computeMatchingRate` counts exactly the valid
beams and the valid beams whose endpoint neighbourhood is occupied. -/
theorem rateFold_eq (m : GridQ) (cosF sinF : ℚ → ℚ) (scan : ScanQ) (minDist : ℚ)
    (sX sY sYaw : ℚ) (l : List (ℕ × ℚ)) (a b : ℕ) :
    l.foldl (rateStep m cosF sinF scan minDist sX sY sYaw) (a, b) =
      (a + l.countP (fun ir => beamValid scan minDist ir.2),
       b + l.countP (fun ir => beamValid scan minDist ir.2 &&
             beamMatches m (beamEndUV m cosF sinF scan sX sY sYaw ir.1 ir.2))) := by
  induction l generalizing a b with
  | nil => simp
  | cons hd tl ih =>
    rw [List.foldl_cons, List.countP_cons, List.countP_cons]
    by_cases hv : beamValid scan minDist hd.2 = true
    · by_cases hm2 : beamMatches m (beamEndUV m cosF sinF scan sX sY sYaw hd.1 hd.2) = true
      · rw [show rateStep m cosF sinF scan minDist sX sY sYaw (a, b) hd = (a + 1, b + 1) by
          rw [rateStep]; simp [hv, hm2]]
        rw [ih]
        simp [hv, hm2]
        constructor <;> omega
      · have hm2f : beamMatches m (beamEndUV m cosF sinF scan sX sY sYaw hd.1 hd.2) = false := by
          rwa [Bool.not_eq_true] at hm2
        rw [show rateStep m cosF sinF scan minDist sX sY sYaw (a, b) hd = (a + 1, b) by
          rw [rateStep]
          simp [hv, hm2f]]
        rw [ih]
        simp [hv, hm2f]
        omega
    · have hvf : beamValid scan minDist hd.2 = false := by
        rwa [Bool.not_eq_true] at hv
      rw [show rateStep m cosF sinF scan minDist sX sY sYaw (a, b) hd = (a, b) by
        rw [rateStep]; simp [hvf]]
      rw [ih]
      simp [hvf]

/-- Characterisation of the matching rate: `none` (the source's NaN)
when no beam is valid, otherwise the fraction of valid beams whose
terminal cell or a four-neighbour is occupied. -/
theorem scanMatchingRate_eq (m : GridQ) (cosF sinF : ℚ → ℚ) (b2l : PoseQ)
    (minDist : ℚ) (scan : ScanQ) (pose : PoseQ) :
    scanMatchingRate m cosF sinF b2l minDist scan pose =
      if validBeamCount scan minDist = 0 then none
      else some ((matchedBeamCount m cosF sinF b2l minDist scan pose : ℚ) /
        (validBeamCount scan minDist : ℚ)) := by
  rw [scanMatchingRate, matchedBeamCount, validBeamCount]
  rw [rateFold_eq]
  simp only [Nat.zero_add, zero_add]

/-- A defined matching rate is nonnegative. -/
theorem scanMatchingRate_nonneg (m : GridQ) (cosF sinF : ℚ → ℚ) (b2l : PoseQ)
    (minDist : ℚ) (scan : ScanQ) (pose : PoseQ) (q : ℚ)
    (h : scanMatchingRate m cosF sinF b2l minDist scan pose = some q) : 0 ≤ q := by
  rw [scanMatchingRate_eq] at h
  split_ifs at h with h0
  obtain rfl := Option.some.inj h
  positivity

/-- C4 (amended): scan-consistency verification casts the OLDEST
retained keyframe scan — the window entry `keyScans_[size-1]` at the
back, not the newest as the claim states; for any scan the rate is the
fraction of valid in-range beams whose terminal cell or one of its four
neighbours is occupied (undefined when no beam is valid); and every
candidate produced by sampling whose defined rate is below the
matching-rate threshold is rejected. -/
theorem C4_matching_rate_amended (m : GridQ) (cosF sinF : ℚ → ℚ) (b2l : PoseQ)
    (minDist : ℚ) (keyScans : List ScanQ) (pose : PoseQ)
    (gp : GenParams) (piQ : ℚ) (nx ny nyaw : ℕ → ℚ)
    (hne : keyScans ≠ []) :
    computeMatchingRateQ m cosF sinF b2l minDist keyScans pose =
      scanMatchingRate m cosF sinF b2l minDist (keyScans.getLast hne) pose ∧
    (∀ (scan : ScanQ) (pose2 : PoseQ),
      scanMatchingRate m cosF sinF b2l minDist scan pose2 =
        if validBeamCount scan minDist = 0 then none
        else some ((matchedBeamCount m cosF sinF b2l minDist scan pose2 : ℚ) /
          (validBeamCount scan minDist : ℚ))) ∧
    (∀ (base out : PoseQ), out ∈ sampleAndVerify gp
        (computeMatchingRateQ m cosF sinF b2l minDist keyScans) piQ nx ny nyaw base →
      ∀ q : ℚ, computeMatchingRateQ m cosF sinF b2l minDist keyScans out = some q →
        ¬q < gp.matchingRateTH) := by
  refine ⟨?_, ?_, ?_⟩
  · rw [computeMatchingRateQ, List.getLast?_eq_getLast _ hne]
  · intro scan pose2
    exact scanMatchingRate_eq m cosF sinF b2l minDist scan pose2
  · intro base out hmem q hq hlt
    have hnn : 0 ≤ q := by
      rw [computeMatchingRateQ] at hq
      cases hgl : keyScans.getLast? with
      | none => rw [hgl] at hq; exact Option.noConfusion hq
      | some sc =>
        rw [hgl] at hq
        exact scanMatchingRate_nonneg m cosF sinF b2l minDist sc out q hq
    have hrej : ∀ cand : PoseQ, cand = out →
        ¬(gp.matchingRateTH > 0 ∧
          verifyReject (computeMatchingRateQ m cosF sinF b2l minDist keyScans cand)
            gp.matchingRateTH = true) → False := by
      rintro cand rfl hcond
      push_neg at hcond
      by_cases hth : gp.matchingRateTH > 0
      · have hnr := hcond hth
        rw [hq] at hnr
        exact hnr (by simp [verifyReject, hlt])
      · push_neg at hth
        linarith
    rw [sampleAndVerify] at hmem
    by_cases har : gp.addRandomSamples = false
    · rw [if_pos har] at hmem
      split_ifs at hmem with hcond
      · exact absurd hmem (List.not_mem_nil out)
      · rw [List.mem_singleton] at hmem
        subst hmem
        exact hrej _ rfl hcond
    · rw [if_neg har] at hmem
      obtain ⟨j, hj, hsome⟩ := List.mem_filterMap.mp hmem
      dsimp only at hsome
      split_ifs at hsome with h1 h2 h3
      · obtain rfl := Option.some.inj hsome
        exact hrej _ rfl h2
      · obtain rfl := Option.some.inj hsome
        exact hrej _ rfl h3

/-- Witness for the amended C4 at the concrete two-keyframe window. -/
theorem C4_matching_rate_amended_witness :
    computeMatchingRateQ gridC4 cosOne sinZero ⟨0, 0, 0⟩ 1 [sNewC4, sOldC4] poseC4 =
      scanMatchingRate gridC4 cosOne sinZero ⟨0, 0, 0⟩ 1
        ([sNewC4, sOldC4].getLast (List.cons_ne_nil _ _)) poseC4 :=
  (C4_matching_rate_amended gridC4 cosOne sinZero ⟨0, 0, 0⟩ 1 [sNewC4, sOldC4] poseC4
    gpC5 (355/113) (fun _ => 0) (fun _ => 0) (fun _ => 0) (List.cons_ne_nil _ _)).1

/-- C5 (amended): a correspondence's candidate is discarded exactly when
its SENSOR position projects out of grid bounds or onto a cell whose
occupancy value is not free (the source rejects occupied AND unknown
cells, and gates on the sensor position, not the body pose); when the
sensor cell is free and in bounds the candidate proceeds to sampling
and verification on the derived body pose. -/
theorem C5_sensor_gate_amended (m : GridQ) (cosF sinF : ℚ → ℚ) (b2l : PoseQ)
    (gp : GenParams) (piQ : ℚ) (rateOf : PoseQ → Option ℚ) (nx ny nyaw : ℕ → ℚ)
    (currentOdomPose : PoseQ) (localKp : Keypoint) (localDomOrient : ℚ)
    (targetKp : Keypoint) (targetDomOrient : ℚ) :
    let sc := sensorCandidate cosF sinF currentOdomPose localKp localDomOrient
      targetKp targetDomOrient
    let uv := xy2uv m cosF sinF sc.1 sc.2.1
    (((uv.1 < 0 ∨ m.width ≤ uv.1 ∨ uv.2 < 0 ∨ m.height ≤ uv.2) ∨
        m.data (uv.2 * m.width + uv.1) ≠ 0) →
      posesForMatch m cosF sinF b2l gp piQ rateOf nx ny nyaw currentOdomPose localKp
        localDomOrient targetKp targetDomOrient = []) ∧
    (¬(uv.1 < 0 ∨ m.width ≤ uv.1 ∨ uv.2 < 0 ∨ m.height ≤ uv.2) →
      m.data (uv.2 * m.width + uv.1) = 0 →
      posesForMatch m cosF sinF b2l gp piQ rateOf nx ny nyaw currentOdomPose localKp
        localDomOrient targetKp targetDomOrient =
        sampleAndVerify gp rateOf piQ nx ny nyaw
          (bodyPose cosF sinF b2l sc.1 sc.2.1 sc.2.2)) := by
  dsimp only
  constructor
  · intro hbad
    rw [posesForMatch]
    by_cases hb : ((xy2uv m cosF sinF
        (sensorCandidate cosF sinF currentOdomPose localKp localDomOrient
          targetKp targetDomOrient).1
        (sensorCandidate cosF sinF currentOdomPose localKp localDomOrient
          targetKp targetDomOrient).2.1).1 < 0 ∨
        m.width ≤ (xy2uv m cosF sinF
          (sensorCandidate cosF sinF currentOdomPose localKp localDomOrient
            targetKp targetDomOrient).1
          (sensorCandidate cosF sinF currentOdomPose localKp localDomOrient
            targetKp targetDomOrient).2.1).1 ∨
        (xy2uv m cosF sinF
          (sensorCandidate cosF sinF currentOdomPose localKp localDomOrient
            targetKp targetDomOrient).1
          (sensorCandidate cosF sinF currentOdomPose localKp localDomOrient
            targetKp targetDomOrient).2.1).2 < 0 ∨
        m.height ≤ (xy2uv m cosF sinF
          (sensorCandidate cosF sinF currentOdomPose localKp localDomOrient
            targetKp targetDomOrient).1
          (sensorCandidate cosF sinF currentOdomPose localKp localDomOrient
            targetKp targetDomOrient).2.1).2)
    · rw [if_pos hb]
    · rw [if_neg hb, if_pos (hbad.resolve_left hb)]
  · intro hok hfree
    rw [posesForMatch]
    rw [if_neg hok, if_neg (by simpa using hfree)]

/-- Witness for the amended C5 at a concrete passing candidate. -/
theorem C5_sensor_gate_amended_witness :
    posesForMatch gridC5 cosOne sinZero ⟨1, 0, 0⟩ gpC5 (355/113) (fun _ => none)
        (fun _ => 0) (fun _ => 0) (fun _ => 0) ⟨0, 0, 0⟩ ⟨0, 0, 1/2, 0, 1⟩ 0 kpTargetC5 0 =
      sampleAndVerify gpC5 (fun _ => none) (355/113) (fun _ => 0) (fun _ => 0) (fun _ => 0)
        (bodyPose cosOne sinZero ⟨1, 0, 0⟩
          (sensorCandidate cosOne sinZero ⟨0, 0, 0⟩ ⟨0, 0, 1/2, 0, 1⟩ 0 kpTargetC5 0).1
          (sensorCandidate cosOne sinZero ⟨0, 0, 0⟩ ⟨0, 0, 1/2, 0, 1⟩ 0 kpTargetC5 0).2.1
          (sensorCandidate cosOne sinZero ⟨0, 0, 0⟩ ⟨0, 0, 1/2, 0, 1⟩ 0 kpTargetC5 0).2.2) :=
  (C5_sensor_gate_amended gridC5 cosOne sinZero ⟨1, 0, 0⟩ gpC5 (355/113) (fun _ => none)
    (fun _ => 0) (fun _ => 0) (fun _ => 0) ⟨0, 0, 0⟩ ⟨0, 0, 1/2, 0, 1⟩ 0 kpTargetC5 0).2
    (by norm_num [sensorCandidate, xy2uv, truncQ, gridC5, kpTargetC5, cosOne, sinZero])
    (by norm_num [sensorCandidate, xy2uv, truncQ, gridC5, kpTargetC5, cosOne, sinZero])

/-- Histogram L1 scores are nonnegative. -/
theorem histL1_nonneg (a b : List Int) : 0 ≤ histL1 a b := by
  rw [histL1]
  apply List.sum_nonneg
  intro x hx
  obtain ⟨k, hk, rfl⟩ := List.mem_map.mp hx
  exact abs_nonneg _

/-- Every considered candidate's score is nonnegative. -/
theorem consideredCands_nonneg (lf : TypedFeature) (th : ℚ)
    (globals : List TypedFeature) :
    ∀ p ∈ consideredCands lf th globals, 0 ≤ p.2 := by
  intro p hp
  obtain ⟨jg, hjg, rfl⟩ := List.mem_map.mp hp
  exact histL1_nonneg _ _

/-- The matcher loop is the best/second-best fold over exactly the
considered candidates: globals failing the type or average-SDF gate
leave the loop state untouched. -/
theorem matchScan_eq_candsFold (lf : TypedFeature) (th : ℚ)
    (globals : List TypedFeature) :
    matchScan lf th globals = candsFold (consideredCands lf th globals) := by
  rw [matchScan, candsFold, consideredCands]
  generalize globals.enum = l
  generalize matchInit = st
  induction l generalizing st with
  | nil => rfl
  | cons hd tl ih =>
    rw [List.foldl_cons]
    by_cases hp : lf.type = hd.2.type ∧ sdfSkip lf.avgSDF hd.2.avgSDF th = false
    · rw [List.filter_cons_of_pos (by simpa using hp), List.map_cons, List.foldl_cons]
      rw [show matchScanStep lf th st hd = matchBody st (hd.1 : Int) (histL1 lf.hist hd.2.hist) by
        rw [matchScanStep, if_neg (by simp [hp.1]), if_neg (by simp [hp.2])]]
      exact ih _
    · rw [List.filter_cons_of_neg (by simpa using hp)]
      rw [show matchScanStep lf th st hd = st by
        rw [matchScanStep]
        by_cases ht : lf.type = hd.2.type
        · rw [if_neg (by simp [ht])]
          rw [if_pos]
          rcases not_and_or.mp hp with hc | hc
          · exact absurd ht hc
          · rwa [Bool.not_eq_false] at hc
        · rw [if_pos ht]]
      exact ih st


/-- The best/second-best fold satisfies `MatchInv` on every nonempty
candidate list with nonnegative scores. -/
theorem candsFold_inv : ∀ cands : List (Int × Int), cands ≠ [] →
    (∀ p ∈ cands, 0 ≤ p.2) → MatchInv cands (candsFold cands) := by
  intro cands
  induction cands using List.reverseRecOn with
  | nil => exact fun hne _ => absurd rfl hne
  | append_singleton l a ih =>
    intro _ hnn
    have hstep : candsFold (l ++ [a]) = matchBody (candsFold l) a.1 a.2 := by
      rw [candsFold, List.foldl_append, List.foldl_cons, List.foldl_nil, candsFold]
    rcases eq_or_ne l [] with hl | hl
    · subst hl
      rw [List.nil_append] at hstep hnn ⊢
      rw [hstep]
      have hb : matchBody (candsFold []) a.1 a.2 =
          ⟨false, true, a.1, 0, a.2, -1⟩ := rfl
      rw [hb]
      refine ⟨rfl, hnn a (by simp), by simp, ?_, by simp, fun _ => rfl, by simp⟩
      intro p hp
      rw [List.mem_singleton] at hp
      subst hp
      exact le_refl _
    · have hnl : ∀ p ∈ l, 0 ≤ p.2 := fun p hp => hnn p (List.mem_append_left _ hp)
      obtain ⟨hF, hm1, hmem, hmin, hsec, hone, htwo⟩ := ih hl hnl
      have hlenl : 1 ≤ l.length := by
        rcases l with - | ⟨x, xs⟩
        · exact absurd rfl hl
        · simp
      rw [hstep, matchBody, if_neg (by simp [hF])]
      by_cases hlen : l.length = 1
      · have hsecT : (candsFold l).isSecond = true := hsec.mpr hlen
        rw [if_pos hsecT]
        by_cases hlt : (candsFold l).min1 < a.2
        · rw [if_pos hlt]
          refine ⟨hF, hm1, List.mem_append_left _ hmem, ?_, ?_, ?_, ?_⟩
          · intro p hp
            rcases List.mem_append.mp hp with hp | hp
            · exact hmin p hp
            · rw [List.mem_singleton] at hp
              subst hp
              exact hlt.le
          · simp [hlen]
          · intro hcontra
            rw [List.length_append, hlen] at hcontra
            simp at hcontra
          · intro _
            exact hnn a (List.mem_append_right _ (by simp))
        · rw [if_neg hlt]
          push_neg at hlt
          refine ⟨hF, hnn a (List.mem_append_right _ (by simp)),
            List.mem_append_right _ (by simp), ?_, ?_, ?_, ?_⟩
          · intro p hp
            rcases List.mem_append.mp hp with hp | hp
            · exact le_trans hlt (hmin p hp)
            · rw [List.mem_singleton] at hp
              subst hp
              exact le_refl _
          · simp [hlen]
          · intro hcontra
            rw [List.length_append, hlen] at hcontra
            simp at hcontra
          · intro _
            exact hm1
      · have hsecF : (candsFold l).isSecond = false := by
          cases hsf : (candsFold l).isSecond
          · rfl
          · exact absurd (hsec.mp hsf) hlen
        have hlen2 : 2 ≤ l.length := by omega
        rw [if_neg (by simp [hsecF])]
        by_cases hgt : (candsFold l).min1 > a.2
        · rw [if_pos hgt]
          refine ⟨hF, hnn a (List.mem_append_right _ (by simp)),
            List.mem_append_right _ (by simp), ?_, ?_, ?_, ?_⟩
          · intro p hp
            rcases List.mem_append.mp hp with hp | hp
            · exact le_trans hgt.le (hmin p hp)
            · rw [List.mem_singleton] at hp
              subst hp
              exact le_refl _
          · rw [List.length_append]
            simp [hsecF]
            exact hl
          · intro hcontra
            rw [List.length_append] at hcontra
            omega
          · intro _
            exact hm1
        · rw [if_neg hgt]
          push_neg at hgt
          refine ⟨hF, hm1, List.mem_append_left _ hmem, ?_, ?_, ?_, ?_⟩
          · intro p hp
            rcases List.mem_append.mp hp with hp | hp
            · exact hmin p hp
            · rw [List.mem_singleton] at hp
              subst hp
              exact hgt
          · rw [List.length_append]
            simp [hsecF]
            exact hl
          · intro hcontra
            rw [List.length_append] at hcontra
            omega
          · intro _
            exact htwo hlen2

/-- Restatement of the acceptance rule of Pose.h lines 931-936: accept
`idx1` iff a best exists and either no second was tracked or
`min1 * 1.5 < min2`. -/
theorem matchDecision_eq (st : MatchState) :
    matchDecision st =
      if 0 ≤ st.min1 ∧ (st.min2 < 0 ∨ (st.min1 : ℚ) * (3 / 2) < (st.min2 : ℚ))
      then st.idx1 else -1 := by
  rw [matchDecision]
  by_cases h1 : 0 ≤ st.min1
  · by_cases h2 : st.min2 < 0
    · rw [if_neg (by rintro ⟨-, hc, -⟩; omega), if_pos ⟨h1, h2⟩, if_pos ⟨h1, Or.inl h2⟩]
    · push_neg at h2
      by_cases h3 : (st.min1 : ℚ) * (3 / 2) < (st.min2 : ℚ)
      · rw [if_pos ⟨h1, by omega, h3⟩, if_pos ⟨h1, Or.inr h3⟩]
      · have hcond : ¬(0 ≤ st.min1 ∧
            (st.min2 < 0 ∨ (st.min1 : ℚ) * (3 / 2) < (st.min2 : ℚ))) := by
          rintro ⟨-, hc | hc⟩
          · omega
          · exact h3 hc
        rw [if_neg (fun hx => h3 hx.2.2), if_neg (fun hx => absurd hx.2 (not_lt.mpr h2)),
          if_neg hcond]
  · rw [if_neg (fun hx => h1 hx.1), if_neg (fun hx => h1 hx.1),
      if_neg (fun hx => h1 hx.1)]

/-- C2 (amended): the matcher considers exactly the globals passing the
type and average-SDF gates; it tracks the best score exactly (`min1` is
the minimum considered score, attained at `idx1`); with no considered
candidate it returns -1; `min2 < 0` holds iff exactly one candidate was
considered; and it accepts `idx1` iff a best exists and either no second
was tracked or `min1 * 1.5 < min2` — where the tracked `min2` may exceed
the true second-smallest score (see the counterexample). -/
theorem C2_matcher_amended (lf : TypedFeature) (th : ℚ) (globals : List TypedFeature) :
    matchScan lf th globals = candsFold (consideredCands lf th globals) ∧
    (consideredCands lf th globals = [] →
      findCorrespondingFeature lf th globals = -1) ∧
    (consideredCands lf th globals ≠ [] →
      (∀ p ∈ consideredCands lf th globals, (matchScan lf th globals).min1 ≤ p.2) ∧
      ((matchScan lf th globals).idx1, (matchScan lf th globals).min1) ∈
        consideredCands lf th globals ∧
      ((matchScan lf th globals).min2 < 0 ↔
        (consideredCands lf th globals).length = 1)) ∧
    findCorrespondingFeature lf th globals =
      (if 0 ≤ (matchScan lf th globals).min1 ∧
          ((matchScan lf th globals).min2 < 0 ∨
            ((matchScan lf th globals).min1 : ℚ) * (3 / 2) <
              ((matchScan lf th globals).min2 : ℚ))
        then (matchScan lf th globals).idx1 else -1) := by
  refine ⟨matchScan_eq_candsFold lf th globals, ?_, ?_, matchDecision_eq _⟩
  · intro hemp
    rw [findCorrespondingFeature, matchScan_eq_candsFold, hemp]
    rfl
  · intro hne
    obtain ⟨hF, hm1, hmem, hmin, hsec, hone, htwo⟩ :=
      candsFold_inv (consideredCands lf th globals) hne
        (consideredCands_nonneg lf th globals)
    rw [matchScan_eq_candsFold]
    refine ⟨hmin, hmem, ?_⟩
    constructor
    · intro hlt
      by_cases hl : (consideredCands lf th globals).length = 1
      · exact hl
      · have hz : (consideredCands lf th globals).length ≠ 0 := by
          simpa [List.length_eq_zero] using hne
        have h2 : 2 ≤ (consideredCands lf th globals).length := by omega
        have := htwo h2
        omega
    · intro hl
      rw [hone hl]
      omega

/-- Witness for the amended C2 at the concrete three-candidate input. -/
theorem C2_matcher_amended_witness :
    ((matchScan localFeatC2 1 globalsC2).idx1, (matchScan localFeatC2 1 globalsC2).min1) ∈
      consideredCands localFeatC2 1 globalsC2 :=
  ((C2_matcher_amended localFeatC2 1 globalsC2).2.2.1 (by
    have hskip : sdfSkip (some 0) (some 0) 1 = false := by norm_num [sdfSkip]
    norm_num [consideredCands, globalsC2, localFeatC2, List.enum, List.enumFrom,
      hskip]
    exact List.cons_ne_nil _ _)).2.1

/-- C6: a scan whose in-range fraction is below the 0.1 minimum is
dropped by `scanCB` with no state change — the keyframe window, the
previous-odometry record and every other state field are untouched —
and nothing is published for it. -/
theorem C6_invalid_scan_dropped (p : SamplerParams) (st : SamplerState)
    (msg : ScanQ) (hne : msg.ranges ≠ [])
    (hlow : (validScanNumQ msg : ℚ) / (msg.ranges.length : ℚ) < 1 / 10) :
    scanStep p st msg = (st, false) := by
  have hinv : scanInvalid msg = true := by
    simp only [scanInvalid, Bool.and_eq_true, Bool.not_eq_true', decide_eq_true_eq]
    refine ⟨?_, hlow⟩
    cases h : msg.ranges with
    | nil => exact absurd h hne
    | cons a l => rfl
  simp [scanStep, hinv]

/-- Witness for C6 at a concrete one-beam scan below range_min. -/
theorem C6_invalid_scan_dropped_witness :
    scanStep pC3 samplerInit scanLowC6 = (samplerInit, false) :=
  C6_invalid_scan_dropped pC3 samplerInit scanLowC6 (by decide)
    (by norm_num [scanLowC6, validScanNumQ, List.countP_cons, List.countP_nil])

/-- C7 (code bug): on a keypoint whose feature window contains zero
valid cells, `calculateFeatures` divides the distance sum by the zero
cell count — float `0.0/0`, NaN, modelled as `none` — instead of the
defined zero average the claim states; the dominant orientation is 0 as
claimed.  Input: all-zero 3x3 distance field, window radius
`(int)(0.5/1.0) = 0`, keypoint at grid (0,0) so the single window cell
is skipped by the border test. -/
theorem C7_zero_cells_undefined_average :
    featureOf (fun _ _ => 0) 3 3 1 (1/2) (355/113) (fun _ _ => 0) ⟨0, 0, 0, 0, -2⟩ =
      ⟨0, none, List.replicate 17 0⟩ := by
  have hr : truncQ ((1:ℚ)/2 / 1) = 0 := by norm_num [truncQ]
  have hd : domFold (List.replicate 36 0) = ((0:Int), (0:ℚ)) := by decide
  have hcells : ((windowRange (0:Int) 0).flatMap fun u =>
      (windowRange (0:Int) 0).map fun v => (u, v)) = [((0:Int), (0:Int))] := by decide
  have hfold : List.foldl (featAccStep (fun _ _ => (0:ℚ)) 3 3 (fun _ _ => (0:ℚ)))
      ⟨0, 0, List.replicate 36 0, []⟩ [((0:Int), (0:Int))] =
      (⟨0, 0, List.replicate 36 0, []⟩ : FeatAcc) := by decide
  simp only [featureOf, hr, hcells, hfold, hd, relHistFold, List.foldl_nil]
  norm_num

/-- C8 (code bug): invoked on a scan with zero valid beams,
`computeMatchingRate` divides `0 / 0` in floating point — NaN, modelled
as `none`, not the 0 the claim states — and the rejection comparison
`rate < matchingRateTH_` on that NaN is false, so the candidate is NOT
rejected. -/
theorem C8_zero_beams_undefined_rate :
    computeMatchingRateQ gridC4 cosOne sinZero ⟨0, 0, 0⟩ 1 [scanNoValidC8] poseC4 = none ∧
    verifyReject none (1/10) = false := by
  refine ⟨?_, rfl⟩
  norm_num [computeMatchingRateQ, scanMatchingRate, scanNoValidC8, poseC4, gridC4,
    rateStep, beamValid, cosOne, sinZero, List.enum, List.enumFrom, List.getLast?]

/-- Counterexample for C2: considered scores in scan order are 5, 10, 7;
the true second-smallest is 7, but the loop's tracked second-best ends
at 10 (a score falling strictly between the best and the tracked
second-best never updates it), and the matcher returns index 0 although
5 * 1.5 ≥ 7 — the claim's tracking would have demanded "no match". -/
theorem C2_second_best_cex :
    (consideredCands localFeatC2 1 globalsC2).map Prod.snd = [5, 10, 7] ∧
    secondSmallest [5, 10, 7] = some 7 ∧
    (matchScan localFeatC2 1 globalsC2).min2 = 10 ∧
    findCorrespondingFeature localFeatC2 1 globalsC2 = 0 ∧
    ¬((5 : ℚ) * (3 / 2) < (7 : ℚ)) := by
  have hskip : sdfSkip (some 0) (some 0) 1 = false := by norm_num [sdfSkip]
  have h5 : histL1 (List.replicate 17 0) (5 :: List.replicate 16 0) = 5 := by decide
  have h10 : histL1 (List.replicate 17 0) (10 :: List.replicate 16 0) = 10 := by decide
  have h7 : histL1 (List.replicate 17 0) (7 :: List.replicate 16 0) = 7 := by decide
  refine ⟨?_, by decide, ?_, ?_, by norm_num⟩
  · norm_num [consideredCands, globalsC2, localFeatC2, List.enum, List.enumFrom, hskip,
      h5, h10, h7]
  · norm_num [matchScan, matchScanStep, matchBody, matchInit, globalsC2, localFeatC2,
      List.enum, List.enumFrom, hskip, h5, h10, h7]
  · norm_num [findCorrespondingFeature, matchScan, matchScanStep, matchBody, matchDecision,
      matchInit, globalsC2, localFeatC2, List.enum, List.enumFrom, hskip, h5, h10, h7]

/-- Counterexample for C4: with the two-keyframe window
`[sNewC4, sOldC4]` (newest first), `computeMatchingRate` evaluates the
rate of the OLDEST scan (value 1), not of the newest scan whose rate is
0 — so the scan it uses is not the most recent keyframe scan. -/
theorem C4_newest_scan_cex :
    computeMatchingRateQ gridC4 cosOne sinZero ⟨0, 0, 0⟩ 1 [sNewC4, sOldC4] poseC4 = some 1 ∧
    scanMatchingRate gridC4 cosOne sinZero ⟨0, 0, 0⟩ 1 sNewC4 poseC4 = some 0 ∧
    [sNewC4, sOldC4].head? = some sNewC4 := by
  refine ⟨?_, ?_, rfl⟩
  · norm_num [computeMatchingRateQ, scanMatchingRate, sOldC4, sNewC4, poseC4, gridC4,
      rateStep, beamValid, beamMatches, beamEndUV, xy2uv, truncQ, cosOne, sinZero,
      List.enum, List.enumFrom, List.getLast?]
  · norm_num [scanMatchingRate, sNewC4, poseC4, gridC4,
      rateStep, beamValid, beamMatches, beamEndUV, xy2uv, truncQ, cosOne, sinZero,
      List.enum, List.enumFrom]

/-- Counterexample for C5: the candidate is discarded (no pose emitted)
although its body pose projects onto a free in-bounds cell and no cell
of the grid is occupied: the gate tests the SENSOR position, whose cell
holds the unknown value -1, not the body position, and it rejects every
non-free value, not only occupied ones. -/
theorem C5_body_pose_cex :
    posesForMatch gridC5 cosOne sinZero ⟨1, 0, 0⟩ gpC5 (355/113) (fun _ => none)
        (fun _ => 0) (fun _ => 0) (fun _ => 0) ⟨0, 0, 0⟩ kpLocalC5 0 kpTargetC5 0 = [] ∧
    gridC5.data
      ((xy2uv gridC5 cosOne sinZero
          (sensorCandidate cosOne sinZero ⟨0, 0, 0⟩ kpLocalC5 0 kpTargetC5 0).1
          (sensorCandidate cosOne sinZero ⟨0, 0, 0⟩ kpLocalC5 0 kpTargetC5 0).2.1).2 *
          gridC5.width +
        (xy2uv gridC5 cosOne sinZero
          (sensorCandidate cosOne sinZero ⟨0, 0, 0⟩ kpLocalC5 0 kpTargetC5 0).1
          (sensorCandidate cosOne sinZero ⟨0, 0, 0⟩ kpLocalC5 0 kpTargetC5 0).2.1).1) = -1 ∧
    (let b := bodyPose cosOne sinZero ⟨1, 0, 0⟩
        (sensorCandidate cosOne sinZero ⟨0, 0, 0⟩ kpLocalC5 0 kpTargetC5 0).1
        (sensorCandidate cosOne sinZero ⟨0, 0, 0⟩ kpLocalC5 0 kpTargetC5 0).2.1
        (sensorCandidate cosOne sinZero ⟨0, 0, 0⟩ kpLocalC5 0 kpTargetC5 0).2.2
     let buv := xy2uv gridC5 cosOne sinZero b.x b.y
     (0 ≤ buv.1 ∧ buv.1 < gridC5.width ∧ 0 ≤ buv.2 ∧ buv.2 < gridC5.height) ∧
       gridC5.data (buv.2 * gridC5.width + buv.1) = 0) := by
  refine ⟨?_, ?_, ?_⟩
  · norm_num [posesForMatch, sensorCandidate, xy2uv, truncQ, gridC5, kpLocalC5, kpTargetC5,
      cosOne, sinZero]
  · norm_num [sensorCandidate, xy2uv, truncQ, gridC5, kpLocalC5, kpTargetC5, cosOne, sinZero]
  · norm_num [sensorCandidate, bodyPose, xy2uv, truncQ, gridC5, kpLocalC5, kpTargetC5,
      cosOne, sinZero]

/-- Counterexample for C9: the cell (1,1) of `distSaddle` has squared
gradient components 1 and 1 — each below the threshold 2, so the source
emits a saddle keypoint for it — while the squared gradient MAGNITUDE
dx^2 + dy^2 = 2 is NOT below the threshold, so the claim says no
keypoint may be emitted. -/
theorem C9_flatness_cex :
    (⟨1, 1, 1, 1, 0⟩ : Keypoint) ∈ detectKeypoints gridSaddle distSaddle 1 0 2 1 ∧
    ¬(sobelDx distSaddle 1 1 * sobelDx distSaddle 1 1 +
        sobelDy distSaddle 1 1 * sobelDy distSaddle 1 1 < 2) := by
  constructor
  · norm_num [detectKeypoints, gridSaddle, interiorRange, cellKeypoint, distSaddle,
      sobelDx, sobelDy, hessDxx, hessDyy, hessDxy, keypointWorld]
  · norm_num [sobelDx, sobelDy, distSaddle]

end AlsRos2
